import Mathlib

/-!
Verification development for the repository whois batch scripts
(src/gcp-ip-address-collector/whois.py and src/whois.py).

Shallow embedding conventions:
- WHOIS payloads are Lean strings; all text processing works on the
  underlying character lists (String.data) so that everything evaluates
  inside the kernel.
- Network effects are oracles: a pure function from a query target to a
  tagged outcome.  Sleeps and queries are recorded in an explicit event
  trace; sleep events record the interval bounds of the randomized
  duration the source draws (time itself is not observable here).
- Case folding is ASCII, matching the data the source handles.
-/

/-! ### Character and list helpers -/

/-- Python str.strip whitespace set (space, tab, newline, cr, vt, ff). -/
def isPySpace (c : Char) : Bool :=
  c = ' ' || c = '\t' || c = '\n' || c = '\r' || c = '\x0b' || c = '\x0c'

/-- ASCII lower casing of one character. -/
def charLower (c : Char) : Char :=
  if 65 ≤ c.toNat && c.toNat ≤ 90 then Char.ofNat (c.toNat + 32) else c

def toLowerList (l : List Char) : List Char := l.map charLower

/-- Python str.strip on a character list. -/
def stripChars (l : List Char) : List Char :=
  ((l.dropWhile isPySpace).reverse.dropWhile isPySpace).reverse

/-- Split on a separator character, like Python str.split with one-char sep. -/
def splitOnChar (sep : Char) : List Char → List (List Char)
  | [] => [[]]
  | c :: rest =>
    let r := splitOnChar sep rest
    if c = sep then [] :: r
    else
      match r with
      | [] => [[c]]
      | h :: t => (c :: h) :: t

/-- Substring test (used for the `field.lower() in line.lower()` checks). -/
def infixCheck (needle : List Char) : List Char → Bool
  | [] => needle.isEmpty
  | c :: rest => needle.isPrefixOf (c :: rest) || infixCheck needle rest

/-- Suffix test (used for the endswith calls in the source). -/
def endsWithL (suffix l : List Char) : Bool :=
  List.isPrefixOf suffix.reverse l.reverse

/-! ### Date-time values and strptime-style parsing

parse_expiry_date (whois.py lines 123-160) captures a raw date string
after one of several labels and then tries seven strptime formats in a
fixed order.  The formats are modelled by small explicit parsers over
character lists; validation mirrors what datetime.strptime accepts
(field ranges from the CPython strptime regular expressions, plus the
datetime constructor range checks that turn out-of-range values into a
ValueError and hence into trying the next format).
-/

structure PDateTime where
  year : Nat
  month : Nat
  day : Nat
  hour : Nat
  minute : Nat
  second : Nat
  usec : Nat
  deriving DecidableEq, Repr

def isLeapYear (y : Nat) : Bool := (y % 4 = 0 && y % 100 ≠ 0) || y % 400 = 0

def daysInMonth (y m : Nat) : Nat :=
  if m = 2 then (if isLeapYear y then 29 else 28)
  else if m = 4 || m = 6 || m = 9 || m = 11 then 30
  else 31

/-- Range checks performed by strptime and the datetime constructor. -/
def mkValidDate (y mo d h mi s usec : Nat) : Option PDateTime :=
  if 1 ≤ y && y ≤ 9999 && 1 ≤ mo && mo ≤ 12 && 1 ≤ d && d ≤ daysInMonth y mo
      && h ≤ 23 && mi ≤ 59 && s ≤ 59 then
    some ⟨y, mo, d, h, mi, s, usec⟩
  else
    none

def digitVal (c : Char) : Nat := c.toNat - 48

/-- Exactly four digits (the strptime %Y field). -/
def take4 : List Char → Option (Nat × List Char)
  | a :: b :: c :: d :: rest =>
    if a.isDigit && b.isDigit && c.isDigit && d.isDigit then
      some (digitVal a * 1000 + digitVal b * 100 + digitVal c * 10 + digitVal d, rest)
    else none
  | _ => none

/-- One or two digits, greedily (the two-digit numeric strptime fields).
In the seven formats of the source every numeric field is followed by a
non-digit separator or the end of input, so greedy matching coincides
with the regex alternation strptime compiles. -/
def take2 : List Char → Option (Nat × List Char)
  | [] => none
  | [a] => if a.isDigit then some (digitVal a, []) else none
  | a :: b :: rest =>
    if a.isDigit then
      if b.isDigit then some (digitVal a * 10 + digitVal b, rest)
      else some (digitVal a, b :: rest)
    else none

/-- A literal separator character. -/
def lit (c : Char) : List Char → Option (List Char)
  | x :: rest => if x = c then some rest else none
  | [] => none

/-- A literal letter; strptime compiles its regex with IGNORECASE. -/
def litCI (c : Char) : List Char → Option (List Char)
  | x :: rest => if charLower x = charLower c then some rest else none
  | [] => none

/-- Whitespace in a strptime format matches one or more whitespace chars. -/
def ws1 : List Char → Option (List Char)
  | x :: rest => if isPySpace x then some (rest.dropWhile isPySpace) else none
  | [] => none

/-- Up to n leading digits. -/
def takeDigitsUpTo : Nat → List Char → (List Char × List Char)
  | 0, l => ([], l)
  | _ + 1, [] => ([], [])
  | n + 1, c :: rest =>
    if c.isDigit then
      let (ds, r) := takeDigitsUpTo n rest
      (c :: ds, r)
    else ([], c :: rest)

/-- The %f field: one to six digits, scaled to microseconds. -/
def takeFrac (l : List Char) : Option (Nat × List Char) :=
  let (ds, rest) := takeDigitsUpTo 6 l
  if ds.isEmpty then none
  else some (ds.foldl (fun a c => a * 10 + digitVal c) 0 * 10 ^ (6 - ds.length), rest)

def pIsoZ (l : List Char) : Option PDateTime := do
  let (y, l) ← take4 l
  let l ← lit '-' l
  let (mo, l) ← take2 l
  let l ← lit '-' l
  let (d, l) ← take2 l
  let l ← litCI 'T' l
  let (h, l) ← take2 l
  let l ← lit ':' l
  let (mi, l) ← take2 l
  let l ← lit ':' l
  let (s, l) ← take2 l
  let l ← litCI 'Z' l
  if l.isEmpty then mkValidDate y mo d h mi s 0 else none

def pIsoFracZ (l : List Char) : Option PDateTime := do
  let (y, l) ← take4 l
  let l ← lit '-' l
  let (mo, l) ← take2 l
  let l ← lit '-' l
  let (d, l) ← take2 l
  let l ← litCI 'T' l
  let (h, l) ← take2 l
  let l ← lit ':' l
  let (mi, l) ← take2 l
  let l ← lit ':' l
  let (s, l) ← take2 l
  let l ← lit '.' l
  let (f, l) ← takeFrac l
  let l ← litCI 'Z' l
  if l.isEmpty then mkValidDate y mo d h mi s f else none

def pSpacedDT (l : List Char) : Option PDateTime := do
  let (y, l) ← take4 l
  let l ← lit '-' l
  let (mo, l) ← take2 l
  let l ← lit '-' l
  let (d, l) ← take2 l
  let l ← ws1 l
  let (h, l) ← take2 l
  let l ← lit ':' l
  let (mi, l) ← take2 l
  let l ← lit ':' l
  let (s, l) ← take2 l
  if l.isEmpty then mkValidDate y mo d h mi s 0 else none

def pBareDate (l : List Char) : Option PDateTime := do
  let (y, l) ← take4 l
  let l ← lit '-' l
  let (mo, l) ← take2 l
  let l ← lit '-' l
  let (d, l) ← take2 l
  if l.isEmpty then mkValidDate y mo d 0 0 0 0 else none

def pDMY (sep : Char) (l : List Char) : Option PDateTime := do
  let (d, l) ← take2 l
  let l ← lit sep l
  let (mo, l) ← take2 l
  let l ← lit sep l
  let (y, l) ← take4 l
  if l.isEmpty then mkValidDate y mo d 0 0 0 0 else none

def pYMDSlash (l : List Char) : Option PDateTime := do
  let (y, l) ← take4 l
  let l ← lit '/' l
  let (mo, l) ← take2 l
  let l ← lit '/' l
  let (d, l) ← take2 l
  if l.isEmpty then mkValidDate y mo d 0 0 0 0 else none

/-- The seven strptime formats of parse_expiry_date, in source order. -/
inductive DFormat where
  | isoZ
  | isoFracZ
  | spacedDT
  | bareDate
  | dmyDash
  | dmySlash
  | ymdSlash
  deriving DecidableEq, Repr

def tryFormat : DFormat → List Char → Option PDateTime
  | .isoZ, l => pIsoZ l
  | .isoFracZ, l => pIsoFracZ l
  | .spacedDT, l => pSpacedDT l
  | .bareDate, l => pBareDate l
  | .dmyDash, l => pDMY '-' l
  | .dmySlash, l => pDMY '/' l
  | .ymdSlash, l => pYMDSlash l

/-- date_formats from whois.py lines 144-152, in order. -/
def dateFormats : List DFormat :=
  [.isoZ, .isoFracZ, .spacedDT, .bareDate, .dmyDash, .dmySlash, .ymdSlash]

/-- The inner loop of parse_expiry_date: the first format that parses wins. -/
def parseDateString (l : List Char) : Option PDateTime :=
  dateFormats.findSome? (fun f => tryFormat f l)

/-! ### Label extraction for parse_expiry_date

Each date pattern is a label followed by a greedy run of the character
class containing digits, dash, T, colon, whitespace, dot and Z
(case-insensitive, so t and z as well).  re.search scans positions left
to right; a label occurrence followed by an empty run is skipped, the
scan continues, exactly like regex backtracking would.
-/

def expiryClassChar (c : Char) : Bool :=
  c.isDigit || c = '-' || c = 'T' || c = 't' || c = ':' || isPySpace c || c = '.' || c = 'Z' || c = 'z'

def extractAfterLabel (label : List Char) : List Char → Option (List Char)
  | [] => none
  | c :: rest =>
    if label.isPrefixOf (c :: rest) then
      let run := ((c :: rest).drop label.length).takeWhile expiryClassChar
      if run.isEmpty then extractAfterLabel label rest
      else some (stripChars run)
    else extractAfterLabel label rest

/-- date_patterns of whois.py lines 129-137 (labels, lowercased; the
search is case-insensitive and the captured text is fed to the purely
numeric format parsers, so matching on the lowercased payload is
observationally identical). -/
def datePatterns : List String :=
  ["registry expiry date:", "expiry date:", "expiration date:",
   "expires:", "expire:", "expiration time:", "registry expiry:"]

/-- parse_expiry_date (whois.py lines 123-160): first label pattern whose
captured text parses under some format wins; a matched label whose text
parses under no format falls through to the next pattern. -/
def parse_expiry_date (whois_data : String) : Option PDateTime :=
  let low := toLowerList whois_data.data
  datePatterns.findSome? (fun lbl =>
    (extractAfterLabel lbl.data low).bind parseDateString)

/-! ### Field extraction -/

/-- target_fields from the CONFIG table (whois.py lines 31-37). -/
def targetFields : List String :=
  ["Registrar:", "Registrar WHOIS Server:", "Updated Date:",
   "Creation Date:", "Registry Expiry Date:"]

def joinWithNewline : List (List Char) → List Char
  | [] => []
  | [l] => l
  | l :: rest => l ++ '\n' :: joinWithNewline rest

/-- extract_target_fields (whois.py lines 162-173): keep the stripped
lines that contain some target label case-insensitively; None if no
line matches. -/
def extract_target_fields (whois_data : String) : Option String :=
  let ls := (splitOnChar '\n' whois_data.data).map stripChars
  let hits := ls.filter (fun l =>
    targetFields.any (fun f => infixCheck (toLowerList f.data) (toLowerList l)))
  if hits.isEmpty then none else some ⟨joinWithNewline hits⟩

structure ParsedFields where
  registrar : String
  registrarWhoisServer : String
  updatedDate : String
  creationDate : String
  registryExpiryDate : String
  deriving DecidableEq, Repr

/-- The capture of the regex ^label\s*(.*)$ at a matched line-start
position: the greedy \s* after the label may cross newlines (\s
matches the newline), and the group then runs to the end of whichever
line the whitespace run ends on; the source strips the captured text.
-/
def captureAfterLabel (labelLen : ℕ) (l : List Char) : List Char :=
  stripChars (((l.drop labelLen).dropWhile isPySpace).takeWhile (fun ch => ch != '\n'))

/-- find_value inside parse_fields (whois.py lines 180-184): re.search
of ^label\s*(.*)$ with IGNORECASE and MULTILINE.  The first line-start
occurrence of the label wins; when the label has no value on its own
line the whitespace run crosses the newline and the value comes from
the next non-blank line.  The Boolean argument records whether the
current position is a line start. -/
def findValueAux (label : List Char) : Bool → List Char → Option (List Char)
  | _, [] => none
  | atStart, c :: rest =>
    if atStart = true ∧ label.isPrefixOf (toLowerList (c :: rest)) then
      some (captureAfterLabel label.length (c :: rest))
    else
      findValueAux label (c == '\n') rest

def findValue (label : String) (whois_data : String) : String :=
  match findValueAux (toLowerList label.data) true whois_data.data with
  | some v => ⟨v⟩
  | none => ""

/-- The newline-crossing capture of find_value on a label with an empty
value on its own line, matching the source regex semantics. -/
theorem findValue_crosses_newline :
    findValue "Registrar:" "Registrar:\nExample Corp" = "Example Corp" := by decide

/-- parse_fields (whois.py lines 175-192). -/
def parse_fields (whois_data : String) : ParsedFields :=
  ⟨findValue "Registrar:" whois_data,
   findValue "Registrar WHOIS Server:" whois_data,
   findValue "Updated Date:" whois_data,
   findValue "Creation Date:" whois_data,
   findValue "Registry Expiry Date:" whois_data⟩

/-! ### Payload classification used by the engine -/

/-- Rate-limit detection (whois.py line 299): either phrase occurs in
the lowercased payload. -/
def isRateLimited (whois_data : String) : Bool :=
  let low := toLowerList whois_data.data
  infixCheck "number of allowed queries exceeded".data low
    || infixCheck "limit exceeded".data low

/-- The success test of the candidate loop (whois.py lines 308-312):
some target field is present (extract_target_fields) or an expiry date
parses. -/
def isSuccessPayload (whois_data : String) : Bool :=
  (extract_target_fields whois_data).isSome || (parse_expiry_date whois_data).isSome

/-! ### Structured-protocol (RDAP) adapter -/

/-- Events observable from the outside: a randomized sleep (recording
the interval bounds of the drawn duration, in seconds), one WHOIS query
(target server, timeout), or one RDAP HTTP GET. -/
inductive Event where
  | sleep (lo hi : ℚ)
  | query (server : Option String) (timeout : ℕ)
  | rdap (url : String)
  deriving DecidableEq, Repr

def Event.isQuery : Event → Bool
  | .query _ _ => true
  | _ => false

def Event.isSleep : Event → Bool
  | .sleep _ _ => true
  | _ => false

def Event.isRdap : Event → Bool
  | .rdap _ => true
  | _ => false

/-- get_rdap_url (whois.py lines 194-203). -/
def get_rdap_url (domain : String) : String :=
  let d : String := ⟨stripChars (toLowerList domain.data)⟩
  if endsWithL ".com".data d.data then "https://rdap.verisign.com/com/v1/domain/" ++ d
  else if endsWithL ".net".data d.data then "https://rdap.verisign.com/net/v1/domain/" ++ d
  else if endsWithL ".win".data d.data then "https://rdap.nic.win/domain/" ++ d
  else ""

/-- Whether the TLD is covered by the RDAP endpoint table. -/
def rdapMapped (domain : String) : Bool :=
  let d := stripChars (toLowerList domain.data)
  endsWithL ".com".data d || endsWithL ".net".data d || endsWithL ".win".data d

/-- Outcome of the single HTTP GET and body read inside rdap_fetch: a
decoded body, one of the exception classes the except tuple at line 218
catches (URLError, HTTPError, TimeoutError, ValueError from JSON
decoding), or an exception outside that tuple (for example a
ConnectionResetError during resp.read, http.client.RemoteDisconnected
or IncompleteRead), which the source does not catch. -/
inductive NetOutcome where
  | urlError
  | httpError
  | timeoutFail
  | jsonFail
  | ok (body : String)
  | uncaught (exc : String)
  deriving DecidableEq, Repr

/-- What one call of rdap_fetch does: return a value (the JSON body or
None) or let an exception escape to the caller. -/
inductive RdapOutcome where
  | ret (res : Option String)
  | raised (exc : String)
  deriving DecidableEq, Repr

/-- rdap_fetch (whois.py lines 205-219): no network call when the TLD
has no endpoint; one GET otherwise; each failure of one of the four
caught classes becomes None, while an exception outside the except
tuple propagates.  The second component is the trace of network calls
performed. -/
def rdap_fetch (domain : String) (net : String → NetOutcome) :
    RdapOutcome × List Event :=
  let url := get_rdap_url domain
  if url = "" then (.ret none, [])
  else
    match net url with
    | .ok body => (.ret (some body), [.rdap url])
    | .urlError => (.ret none, [.rdap url])
    | .httpError => (.ret none, [.rdap url])
    | .timeoutFail => (.ret none, [.rdap url])
    | .jsonFail => (.ret none, [.rdap url])
    | .uncaught exc => (.raised exc, [.rdap url])

/-! ### Resolution engine -/

/-- Result of one run_whois_command call: the source maps a nonzero
exit, a timeout, or any exception to an error tag, and a zero exit to
the stdout text. -/
inductive QRes where
  | err (kind : String)
  | ok (data : String)
  deriving DecidableEq, Repr

/-- The WHOIS side of the network, one reply per target server within
an attempt (none is the automatic server choice). -/
abbrev Env := Option String → QRes

/-- CONFIG of gcp-ip-address-collector/whois.py lines 25-38. -/
def CONFIG_max_retries : ℕ := 3
def CONFIG_retry_delay : ℕ := 2
def CONFIG_whois_timeout : ℕ := 5
def CONFIG_warning_days : Int := 50

/-- WHOIS_SERVERS (whois.py lines 41-52); none is automatic choice. -/
def WHOIS_SERVERS : List (Option String) :=
  [none,
   some "whois.verisign-grs.com",
   some "whois.nic.site",
   some "whois.nic.club",
   some "whois.nic.fun",
   some "whois.nic.net",
   some "whois.nic.online",
   some "whois.nic.win",
   some "whois.registrar-servers.com"]

/-- REGISTRAR_GUESS_SERVERS_WIN (whois.py lines 55-61). -/
def REGISTRAR_GUESS_SERVERS_WIN : List String :=
  ["grs-whois.aliyun.com",
   "whois.godaddy.com",
   "whois.namecheap.com",
   "whois.tucows.com",
   "whois.publicdomainregistry.com"]

/-- registry_host (whois.py line 254). -/
def registry_host : String := "whois.verisign-grs.com"

/-- domain.lower().endswith(".win") (whois.py line 259). -/
def isWinDomain (domain : String) : Bool :=
  endsWithL ".win".data (toLowerList domain.data)

/-- local_timeout (whois.py line 260). -/
def localTimeout (domain : String) : ℕ :=
  if isWinDomain domain then 10 else CONFIG_whois_timeout

/-- The backoff base of whois.py line 302: min(10, 2 * attempt). -/
def backoffBase (attempt : ℕ) : ℚ := min 10 (2 * attempt)

/-- The pre-query jitter sleep for .win inside the main loop
(whois.py lines 278-279 and 352-353): 0.3 + uniform(0, 0.6). -/
def winJitter : List Event := [.sleep (3 / 10) (9 / 10)]

/-- The main candidate loop of query_domain_single_attempt (whois.py
lines 273-361) followed by the final decision (lines 363-369), with
the registry break inlined as an early return of the registry payload
(the loop only ever sets registry_success immediately before break,
and the final decision prefers it over the fallback).  Returns the
winning payload (or none) and the trace of sleeps and queries. -/
def scanServers (isWin : Bool) (a t : ℕ) (env : Env) :
    List (Option String) → Option String → Option String × List Event
  | [], best => (best, [])
  | s :: rest, best =>
    let pre : List Event := if isWin then winJitter else []
    if isWin = true ∧ s = some "whois.nic.win" then
      let nxt := scanServers isWin a t env rest best
      (nxt.1, pre ++ nxt.2)
    else
      match env s with
      | QRes.err _ =>
        let nxt := scanServers isWin a t env rest best
        (nxt.1, pre ++ Event.query s t :: nxt.2)
      | QRes.ok data =>
        if isRateLimited data = true then
          let nxt := scanServers isWin a t env rest best
          (nxt.1, pre ++ Event.query s t
            :: Event.sleep (backoffBase a + 1 / 5) (backoffBase a + 4 / 5) :: nxt.2)
        else if isSuccessPayload data = true then
          if s = some registry_host then
            (some data, pre ++ [Event.query s t])
          else
            let best2 := match best with
              | some b => some b
              | none => some data
            let nxt := scanServers isWin a t env rest best2
            (nxt.1, pre ++ Event.query s t :: nxt.2)
        else
          let rw := (parse_fields data).registrarWhoisServer
          if rw = "" then
            let nxt := scanServers isWin a t env rest best
            (nxt.1, pre ++ Event.query s t :: nxt.2)
          else
            let pivotPre : List Event := if isWin then winJitter else []
            match env (some rw) with
            | QRes.err _ =>
              let nxt := scanServers isWin a t env rest best
              (nxt.1, pre ++ Event.query s t :: (pivotPre ++ Event.query (some rw) t :: nxt.2))
            | QRes.ok d2 =>
              if (parse_expiry_date d2).isSome = true then
                (some d2, pre ++ Event.query s t :: (pivotPre ++ [Event.query (some rw) t]))
              else
                let nxt := scanServers isWin a t env rest best
                (nxt.1, pre ++ Event.query s t :: (pivotPre ++ Event.query (some rw) t :: nxt.2))

/-- The .win registrar-guess loop (whois.py lines 263-270): jitter
sleep 0.2 + uniform(0, 0.4) before each query; return on the first
error-free reply with a parseable expiry date. -/
def winGuessLoop (t : ℕ) (env : Env) : List String → Option String × List Event
  | [] => (none, [])
  | g :: gs =>
    let ev : List Event := [.sleep (1 / 5) (3 / 5), .query (some g) t]
    match env (some g) with
    | QRes.err _ =>
      let nxt := winGuessLoop t env gs
      (nxt.1, ev ++ nxt.2)
    | QRes.ok d =>
      if (parse_expiry_date d).isSome = true then (some d, ev)
      else
        let nxt := winGuessLoop t env gs
        (nxt.1, ev ++ nxt.2)

/-- query_domain_single_attempt (whois.py lines 250-369). -/
def query_domain_single_attempt (domain : String) (a : ℕ) (env : Env) :
    Option String × List Event :=
  let t := localTimeout domain
  if isWinDomain domain then
    match winGuessLoop t env REGISTRAR_GUESS_SERVERS_WIN with
    | (some d, tr) => (some d, tr)
    | (none, tr) =>
      let nxt := scanServers true a t env WHOIS_SERVERS none
      (nxt.1, tr ++ nxt.2)
  else
    scanServers false a t env WHOIS_SERVERS none

/-- query_domain_with_retry (whois.py lines 371-385): attempts
1..max_retries, first successful payload wins. -/
def query_domain_with_retry (domain : String) (envs : ℕ → Env) : Option String :=
  (List.range CONFIG_max_retries).findSome?
    (fun i => (query_domain_single_attempt domain (i + 1) (envs (i + 1))).1)

/-! ### Expiry classification and output rows -/

/-- Civil date to days since the Unix epoch (proleptic Gregorian). -/
def daysFromCivil (y m d : Nat) : Int :=
  let yAdj : Int := if m ≤ 2 then (y : Int) - 1 else (y : Int)
  let era : Int := (if 0 ≤ yAdj then yAdj else yAdj - 399) / 400
  let yoe : Int := yAdj - era * 400
  let mp : Int := ((m : Int) + 9) % 12
  let doy : Int := (153 * mp + 2) / 5 + (d : Int) - 1
  let doe : Int := yoe * 365 + yoe / 4 - yoe / 100 + doy
  era * 146097 + doe - 719468

/-- Seconds since the Unix epoch of a parsed datetime (all timestamps
are naive and treated as UTC, as in the source). -/
def toEpochSec (dt : PDateTime) : Int :=
  daysFromCivil dt.year dt.month dt.day * 86400
    + (dt.hour : Int) * 3600 + (dt.minute : Int) * 60 + (dt.second : Int)

/-- (expiry_date - datetime.now()).days: the floor of the difference in
whole days (Python timedelta.days floors for negative values too). -/
def daysUntilExpiry (expiry now : Int) : Int := (expiry - now).fdiv 86400

/-- The status branch of main (whois.py lines 459-479). -/
def classifyStatus (d w : Int) : String :=
  if d < 0 then "expired"
  else if d ≤ w then "warning"
  else "safe"

def pad2 (n : Nat) : String := if n < 10 then "0" ++ toString n else toString n

/-- expiry_date.strftime of a parsed datetime as an ISO date. -/
def formatDate (dt : PDateTime) : String :=
  toString dt.year ++ "-" ++ pad2 dt.month ++ "-" ++ pad2 dt.day

/-- One CSV row (header order of whois.py lines 524-528); numeric cells
are rendered as strings since the empty cell is a legal value. -/
structure CsvRow where
  domain : String
  status : String
  expiry_date : String
  days_until_expiry : String
  registrar : String
  registrar_whois_server : String
  updated_date : String
  creation_date : String
  registry_expiry_date_raw : String
  deriving DecidableEq, Repr

/-- The row written for a domain whose every attempt failed
(whois.py lines 509-521). -/
def failedRow (domain : String) : CsvRow :=
  ⟨domain, "failed", "", "", "", "", "", "", ""⟩

/-- The per-domain body of main (whois.py lines 448-521): a failed
resolution gives the failed row; a winning payload without a parseable
expiry date gives an unknown row that still carries the extracted
fields; otherwise the expiry is classified against warning_days.
now is the epoch-second clock value of datetime.now(). -/
def processDomain (now w : Int) (domain : String) (res : Option String) : CsvRow :=
  match res with
  | none => failedRow domain
  | some data =>
    match parse_expiry_date data with
    | some dt =>
      let d := daysUntilExpiry (toEpochSec dt) now
      let f := parse_fields data
      ⟨domain, classifyStatus d w, formatDate dt, toString d,
       f.registrar, f.registrarWhoisServer, f.updatedDate, f.creationDate,
       f.registryExpiryDate⟩
    | none =>
      let f := parse_fields data
      ⟨domain, "unknown", "", "",
       f.registrar, f.registrarWhoisServer, f.updatedDate, f.creationDate,
       f.registryExpiryDate⟩

/-- csv_rows built by the loop over the input domains, in input order;
envs gives each domain its per-attempt WHOIS replies. -/
def batchRows (domains : List String) (envs : String → ℕ → Env) (now w : Int) :
    List CsvRow :=
  domains.map (fun d => processDomain now w d (query_domain_with_retry d (envs d)))

/-! ### General helper lemmas -/

theorem findSome?_append_first {α β : Type} (f : α → Option β) (l1 : List α)
    (x : α) (l2 : List α) (b : β)
    (h1 : ∀ y ∈ l1, f y = none) (hx : f x = some b) :
    (l1 ++ x :: l2).findSome? f = some b := by
  induction l1 with
  | nil => simp [List.findSome?, hx]
  | cons a as ih =>
    have ha := h1 a (by simp)
    simp only [List.cons_append, List.findSome?, ha]
    exact ih (fun y hy => h1 y (by simp [hy]))

theorem str_append_ne_empty (a b : String) (ha : a.data ≠ []) : a ++ b ≠ "" := by
  intro hc
  have h2 := congrArg String.data hc
  rw [String.data_append] at h2
  exact ha (List.append_eq_nil.mp h2).1

/-! ### C2: expiry classification partition and boundaries -/

/-- C2: for a resolved expiry date, with d = daysUntilExpiry computed
from expiryDate - now, the classification of main satisfies d < 0 iff
expired, 0 <= d <= warningDays iff warning, d > warningDays iff safe
(so exactly one holds), and the boundaries d = warningDays, d =
warningDays + 1 and d = -1 classify as warning, safe and expired. -/
theorem c2_expiry_classification (expiry now w : Int) (hw : 0 ≤ w) :
    (classifyStatus (daysUntilExpiry expiry now) w = "expired"
        ↔ daysUntilExpiry expiry now < 0)
  ∧ (classifyStatus (daysUntilExpiry expiry now) w = "warning"
        ↔ 0 ≤ daysUntilExpiry expiry now ∧ daysUntilExpiry expiry now ≤ w)
  ∧ (classifyStatus (daysUntilExpiry expiry now) w = "safe"
        ↔ w < daysUntilExpiry expiry now)
  ∧ classifyStatus w w = "warning"
  ∧ classifyStatus (w + 1) w = "safe"
  ∧ classifyStatus (-1) w = "expired" := by
  have hew : ("expired" : String) ≠ "warning" := by decide
  have hes : ("expired" : String) ≠ "safe" := by decide
  have hws : ("warning" : String) ≠ "safe" := by decide
  set d := daysUntilExpiry expiry now with hd
  refine ⟨?_, ?_, ?_, ?_, ?_, ?_⟩
  · unfold classifyStatus
    split_ifs with h1 h2
    · simp [h1]
    · simp [hew.symm]; omega
    · simp [hes.symm]; omega
  · unfold classifyStatus
    split_ifs with h1 h2
    · simp [hew]; omega
    · simp; omega
    · simp [hws]; omega
  · unfold classifyStatus
    split_ifs with h1 h2
    · simp [hes]; omega
    · simp [hws.symm]; omega
    · simp; omega
  · unfold classifyStatus
    split_ifs with h1 h2
    · omega
    · rfl
    · omega
  · unfold classifyStatus
    split_ifs with h1 h2
    · omega
    · omega
    · rfl
  · unfold classifyStatus
    split_ifs with h1 h2
    · rfl
    · omega
    · omega

theorem c2_witness :
    classifyStatus (daysUntilExpiry 2246400 0) 50 = "warning"
  ∧ classifyStatus 50 50 = "warning"
  ∧ classifyStatus (50 + 1) 50 = "safe"
  ∧ classifyStatus (-1) 50 = "expired" := by
  have h := c2_expiry_classification 2246400 0 50 (by norm_num)
  exact ⟨h.2.1.mpr (by constructor <;> decide), h.2.2.2.1, h.2.2.2.2.1, h.2.2.2.2.2⟩

/-! ### C6: parse-failure payloads downgrade to unknown -/

/-- C6: a winning payload whose expiry date cannot be parsed produces an
unknown row that keeps the other extracted fields and leaves the expiry
date and days cells empty; it is not treated as failed. -/
theorem c6_parse_failure_downgrade (now w : Int) (domain data : String)
    (h : parse_expiry_date data = none) :
    processDomain now w domain (some data)
      = ⟨domain, "unknown", "", "",
         (parse_fields data).registrar, (parse_fields data).registrarWhoisServer,
         (parse_fields data).updatedDate, (parse_fields data).creationDate,
         (parse_fields data).registryExpiryDate⟩
  ∧ (processDomain now w domain (some data)).status = "unknown"
  ∧ (processDomain now w domain (some data)).status ≠ "failed" := by
  refine ⟨?_, ?_, ?_⟩ <;> simp [processDomain, h]

theorem c6_witness :
    processDomain 0 50 "example.com" (some "Registrar: Example Corp")
      = ⟨"example.com", "unknown", "", "", "Example Corp", "", "", "", ""⟩ :=
  ((c6_parse_failure_downgrade 0 50 "example.com" "Registrar: Example Corp"
      (by decide)).1).trans (by decide)

/-! ### C9: date-format precedence -/

/-- C9: the date parser tries the seven formats in exactly the source
order (ISO with Z, ISO with fraction and Z, space-separated date-time,
bare date, DD-MM-YYYY, DD/MM/YYYY, YYYY/MM/DD) and returns the value of
the first format that parses; the parse depends on the raw string only. -/
theorem c9_format_order (s : List Char) (b : PDateTime)
    (fpre : List DFormat) (f : DFormat) (fpost : List DFormat)
    (horder : dateFormats = fpre ++ f :: fpost)
    (hmiss : ∀ g ∈ fpre, tryFormat g s = none)
    (hhit : tryFormat f s = some b) :
    parseDateString s = some b
  ∧ dateFormats = [DFormat.isoZ, DFormat.isoFracZ, DFormat.spacedDT, DFormat.bareDate,
                   DFormat.dmyDash, DFormat.dmySlash, DFormat.ymdSlash] := by
  refine ⟨?_, rfl⟩
  unfold parseDateString
  rw [horder]
  exact findSome?_append_first _ fpre f fpost b hmiss hhit

theorem c9_witness :
    parseDateString "2030-01-15T00:00:00Z".data = some ⟨2030, 1, 15, 0, 0, 0, 0⟩ :=
  (c9_format_order "2030-01-15T00:00:00Z".data ⟨2030, 1, 15, 0, 0, 0, 0⟩
      [] DFormat.isoZ
      [DFormat.isoFracZ, DFormat.spacedDT, DFormat.bareDate,
       DFormat.dmyDash, DFormat.dmySlash, DFormat.ymdSlash]
      rfl (by simp) (by decide)).1

/-! ### C4: behaviour on a rate-limited payload -/

/-- C4 (amended): a rate-limited payload makes the scan sleep for
min(10, 2 * attempt) seconds plus a jitter drawn from [0.2, 0.8] - a
linearly scaled, ceiling-bounded interval - and then continue with the
next candidate using the same state; the whole sleep is at most 10.8
seconds. -/
theorem c4_ratelimit_backoff (isWin : Bool) (a t : ℕ) (env : Env)
    (s : Option String) (data : String)
    (rest : List (Option String)) (best : Option String)
    (hskip : ¬(isWin = true ∧ s = some "whois.nic.win"))
    (henv : env s = QRes.ok data) (hrl : isRateLimited data = true) :
    scanServers isWin a t env (s :: rest) best
      = ((scanServers isWin a t env rest best).1,
         (if isWin then winJitter else [])
           ++ Event.query s t
           :: Event.sleep (backoffBase a + 1 / 5) (backoffBase a + 4 / 5)
           :: (scanServers isWin a t env rest best).2)
  ∧ backoffBase a + 4 / 5 ≤ 54 / 5 := by
  constructor
  · simp only [scanServers]
    rw [if_neg hskip, henv]
    simp [hrl]
  · have hb : backoffBase a ≤ 10 := min_le_left _ _
    linarith

theorem c4_witness :
    scanServers false 1 5 (fun _ => QRes.ok "limit exceeded") [none] none
      = ((scanServers false 1 5 (fun _ => QRes.ok "limit exceeded") [] none).1,
         (if false then winJitter else [])
           ++ Event.query none 5
           :: Event.sleep (backoffBase 1 + 1 / 5) (backoffBase 1 + 4 / 5)
           :: (scanServers false 1 5 (fun _ => QRes.ok "limit exceeded") [] none).2)
  ∧ backoffBase 1 + 4 / 5 ≤ 54 / 5 :=
  c4_ratelimit_backoff false 1 5 (fun _ => QRes.ok "limit exceeded") none
    "limit exceeded" [] none (by simp) rfl (by decide)

/-- C4 counterexample: over the attempt range the engine actually uses
(max_retries = 3) the backoff bases are 2, 4, 6 - an arithmetic, not a
geometric, progression - so the interval is not exponential in the
attempt number. -/
theorem c4_counterexample_not_exponential :
    backoffBase 1 = 2 ∧ backoffBase 2 = 4 ∧ backoffBase 3 = 6
  ∧ CONFIG_max_retries = 3
  ∧ ¬(backoffBase 2 * backoffBase 2 = backoffBase 1 * backoffBase 3) := by
  refine ⟨?_, ?_, ?_, rfl, ?_⟩ <;> norm_num [backoffBase]

/-! ### C8: the RDAP adapter is best-effort for the caught failures -/

/-- C8 (amended): when the TLD of the domain has no endpoint mapping
(only .com, .net and .win are mapped) rdap_fetch returns none with no
network call; on a mapped TLD it performs exactly one GET, each failure
of one of the four caught classes (URLError, HTTPError, TimeoutError,
the JSON-decoding ValueError) yields none, and a decoded body is
returned as is; an exception outside the caught tuple propagates to
the caller instead of yielding absent. -/
theorem c8_rdap_best_effort (domain : String) (net : String → NetOutcome) :
    (get_rdap_url domain = "" → rdap_fetch domain net = (RdapOutcome.ret none, []))
  ∧ (get_rdap_url domain = "" ↔ rdapMapped domain = false)
  ∧ (get_rdap_url domain ≠ "" →
      (net (get_rdap_url domain) = NetOutcome.urlError
        ∨ net (get_rdap_url domain) = NetOutcome.httpError
        ∨ net (get_rdap_url domain) = NetOutcome.timeoutFail
        ∨ net (get_rdap_url domain) = NetOutcome.jsonFail) →
      rdap_fetch domain net
        = (RdapOutcome.ret none, [Event.rdap (get_rdap_url domain)]))
  ∧ (∀ body, get_rdap_url domain ≠ "" →
      net (get_rdap_url domain) = NetOutcome.ok body →
      rdap_fetch domain net
        = (RdapOutcome.ret (some body), [Event.rdap (get_rdap_url domain)]))
  ∧ (∀ exc, get_rdap_url domain ≠ "" →
      net (get_rdap_url domain) = NetOutcome.uncaught exc →
      rdap_fetch domain net
        = (RdapOutcome.raised exc, [Event.rdap (get_rdap_url domain)])) := by
  refine ⟨?_, ?_, ?_, ?_, ?_⟩
  · intro h
    simp [rdap_fetch, h]
  · unfold get_rdap_url rdapMapped
    dsimp only
    split_ifs with h1 h2 h3
    · simp only [h1, Bool.true_or]
      constructor
      · intro hc
        exact absurd hc (str_append_ne_empty _ _ (by decide))
      · intro hc
        exact absurd hc (by simp)
    · simp only [h2, Bool.true_or, Bool.or_true]
      constructor
      · intro hc
        exact absurd hc (str_append_ne_empty _ _ (by decide))
      · intro hc
        exact absurd hc (by simp)
    · simp only [h3, Bool.or_true]
      constructor
      · intro hc
        exact absurd hc (str_append_ne_empty _ _ (by decide))
      · intro hc
        exact absurd hc (by simp)
    · simp [h1, h2, h3]
  · intro h hfail
    unfold rdap_fetch
    rw [if_neg h]
    rcases hfail with ho | ho | ho | ho <;> rw [ho]
  · intro body h hok
    unfold rdap_fetch
    rw [if_neg h, hok]
  · intro exc h hexc
    unfold rdap_fetch
    rw [if_neg h, hexc]

theorem c8_witness :
    rdap_fetch "example.org" (fun _ => NetOutcome.urlError) = (RdapOutcome.ret none, [])
  ∧ rdap_fetch "example.com" (fun _ => NetOutcome.urlError)
      = (RdapOutcome.ret none,
         [Event.rdap "https://rdap.verisign.com/com/v1/domain/example.com"])
  ∧ rdap_fetch "example.net" (fun _ => NetOutcome.ok "body")
      = (RdapOutcome.ret (some "body"),
         [Event.rdap "https://rdap.verisign.com/net/v1/domain/example.net"])
  ∧ rdap_fetch "example.com" (fun _ => NetOutcome.uncaught "RemoteDisconnected")
      = (RdapOutcome.raised "RemoteDisconnected",
         [Event.rdap "https://rdap.verisign.com/com/v1/domain/example.com"]) := by
  refine ⟨?_, ?_, ?_, ?_⟩
  · exact (c8_rdap_best_effort "example.org" (fun _ => NetOutcome.urlError)).1 (by decide)
  · have h := (c8_rdap_best_effort "example.com" (fun _ => NetOutcome.urlError)).2.2.1
      (by decide) (Or.inl rfl)
    rw [h]
    decide
  · have h := (c8_rdap_best_effort "example.net" (fun _ => NetOutcome.ok "body")).2.2.2.1
      "body" (by decide) rfl
    rw [h]
    decide
  · have h := (c8_rdap_best_effort "example.com"
        (fun _ => NetOutcome.uncaught "RemoteDisconnected")).2.2.2.2
      "RemoteDisconnected" (by decide) rfl
    rw [h]
    decide

/-- C8 counterexample: a transport failure outside the caught tuple of
whois.py line 218 (URLError, HTTPError, TimeoutError, ValueError) -
for instance a ConnectionResetError raised while reading the response
body - is not converted into an absent result: rdap_fetch lets it
escape to the caller, so the adapter does not yield absent on every
transport failure and does raise. -/
theorem c8_counterexample_uncaught_raises :
    rdap_fetch "example.com" (fun _ => NetOutcome.uncaught "ConnectionResetError")
      = (RdapOutcome.raised "ConnectionResetError",
         [Event.rdap "https://rdap.verisign.com/com/v1/domain/example.com"])
  ∧ (rdap_fetch "example.com"
        (fun _ => NetOutcome.uncaught "ConnectionResetError")).1
      ≠ RdapOutcome.ret none := by
  constructor <;> decide

/-! ### Scan step lemmas for the candidate loop -/

/-- The candidate outcomes under which the loop body neither breaks at
the registry nor returns through the registrar pivot: a skipped
candidate, a transport error, a rate-limited payload, a successful
payload at a non-registry server, or an unsuccessful payload whose
pivot (if any) does not resolve. -/
def candContinues (isWin : Bool) (env : Env) (s : Option String) : Bool :=
  decide (isWin = true ∧ s = some "whois.nic.win")
  || match env s with
     | QRes.err _ => true
     | QRes.ok data =>
       isRateLimited data
       || (if isSuccessPayload data = true then decide (s ≠ some registry_host)
           else
             decide ((parse_fields data).registrarWhoisServer = "")
             || match env (some (parse_fields data).registrarWhoisServer) with
                | QRes.err _ => true
                | QRes.ok d2 => !(parse_expiry_date d2).isSome)

/-- The provisional-fallback state after a continuing candidate: only a
successful non-registry payload can fill an empty slot. -/
def bestAfter (isWin : Bool) (env : Env) (s : Option String)
    (best : Option String) : Option String :=
  if isWin = true ∧ s = some "whois.nic.win" then best
  else match env s with
    | QRes.err _ => best
    | QRes.ok data =>
      if isRateLimited data = true then best
      else if isSuccessPayload data = true then
        (if s = some registry_host then best
         else match best with | some b => some b | none => some data)
      else best

theorem scan_cont_step (isWin : Bool) (a t : ℕ) (env : Env) (s : Option String)
    (rest : List (Option String)) (best : Option String)
    (h : candContinues isWin env s = true) :
    ∃ ch : List Event,
      scanServers isWin a t env (s :: rest) best
        = ((scanServers isWin a t env rest (bestAfter isWin env s best)).1,
           ch ++ (scanServers isWin a t env rest (bestAfter isWin env s best)).2) := by
  unfold candContinues at h
  by_cases hskip : isWin = true ∧ s = some "whois.nic.win"
  · refine ⟨if isWin then winJitter else [], ?_⟩
    simp only [scanServers, bestAfter]
    rw [if_pos hskip, if_pos hskip]
  · rw [decide_eq_false hskip, Bool.false_or] at h
    cases henv : env s with
    | err k =>
      refine ⟨(if isWin then winJitter else []) ++ [Event.query s t], ?_⟩
      simp only [scanServers, bestAfter]
      rw [if_neg hskip, if_neg hskip, henv]
      simp
    | ok data =>
      rw [henv] at h
      dsimp only at h
      by_cases hrl : isRateLimited data = true
      · refine ⟨(if isWin then winJitter else [])
          ++ [Event.query s t,
              Event.sleep (backoffBase a + 1 / 5) (backoffBase a + 4 / 5)], ?_⟩
        simp only [scanServers, bestAfter]
        rw [if_neg hskip, if_neg hskip, henv]
        simp [hrl]
      · have hrl2 : isRateLimited data = false := by
          cases hh : isRateLimited data
          · rfl
          · exact absurd hh hrl
        rw [hrl2, Bool.false_or] at h
        by_cases hsucc : isSuccessPayload data = true
        · rw [if_pos hsucc] at h
          have hreg : s ≠ some registry_host := of_decide_eq_true h
          refine ⟨(if isWin then winJitter else []) ++ [Event.query s t], ?_⟩
          simp only [scanServers, bestAfter]
          rw [if_neg hskip, if_neg hskip, henv]
          simp [hrl2, hsucc, hreg]
        · have hsucc2 : isSuccessPayload data = false := by
            cases hh : isSuccessPayload data
            · rfl
            · exact absurd hh hsucc
          rw [if_neg hsucc] at h
          by_cases hrw : (parse_fields data).registrarWhoisServer = ""
          · refine ⟨(if isWin then winJitter else []) ++ [Event.query s t], ?_⟩
            simp only [scanServers, bestAfter]
            rw [if_neg hskip, if_neg hskip, henv]
            simp [hrl2, hsucc2, hrw]
          · rw [decide_eq_false hrw, Bool.false_or] at h
            cases hpv : env (some (parse_fields data).registrarWhoisServer) with
            | err k2 =>
              refine ⟨(if isWin then winJitter else []) ++ [Event.query s t]
                ++ (if isWin then winJitter else [])
                ++ [Event.query (some (parse_fields data).registrarWhoisServer) t], ?_⟩
              simp only [scanServers, bestAfter]
              rw [if_neg hskip, if_neg hskip, henv]
              simp [hrl2, hsucc2, hrw, hpv]
            | ok d2 =>
              rw [hpv] at h
              dsimp only at h
              have hp2 : (parse_expiry_date d2).isSome = false := by
                cases hh : (parse_expiry_date d2).isSome
                · rfl
                · rw [hh] at h
                  exact absurd h (by decide)
              refine ⟨(if isWin then winJitter else []) ++ [Event.query s t]
                ++ (if isWin then winJitter else [])
                ++ [Event.query (some (parse_fields data).registrarWhoisServer) t], ?_⟩
              simp only [scanServers, bestAfter]
              rw [if_neg hskip, if_neg hskip, henv]
              simp [hrl2, hsucc2, hrw, hpv, hp2]

theorem scan_cont_prefix (isWin : Bool) (a t : ℕ) (env : Env) :
    ∀ (pre : List (Option String)),
      (∀ s ∈ pre, candContinues isWin env s = true) →
      ∀ ss best, ∃ b2 ch,
        scanServers isWin a t env (pre ++ ss) best
          = ((scanServers isWin a t env ss b2).1,
             ch ++ (scanServers isWin a t env ss b2).2) := by
  intro pre
  induction pre with
  | nil =>
    intro _ ss best
    exact ⟨best, [], by simp⟩
  | cons s ps ih =>
    intro h ss best
    obtain ⟨ch1, hch1⟩ :=
      scan_cont_step isWin a t env s (ps ++ ss) best (h s (by simp))
    obtain ⟨b2, ch2, hch2⟩ :=
      ih (fun x hx => h x (by simp [hx])) ss (bestAfter isWin env s best)
    refine ⟨b2, ch1 ++ ch2, ?_⟩
    rw [List.cons_append, hch1, hch2]
    simp

theorem scan_registry_break (isWin : Bool) (a t : ℕ) (env : Env)
    (rest : List (Option String)) (best : Option String) (p : String)
    (henv : env (some registry_host) = QRes.ok p)
    (hrl : isRateLimited p = false) (hsucc : isSuccessPayload p = true) :
    scanServers isWin a t env (some registry_host :: rest) best
      = (some p, (if isWin then winJitter else [])
          ++ [Event.query (some registry_host) t]) := by
  have hskip : ¬(isWin = true ∧ some registry_host = some "whois.nic.win") := by
    rintro ⟨-, hcontr⟩
    exact absurd hcontr (by decide)
  simp only [scanServers]
  rw [if_neg hskip, henv]
  simp [hrl, hsucc]

/-! ### C1: registry success pre-empts an earlier fallback success -/

/-- C1: if every candidate before the registry-authoritative server
continues the scan, one of them being a non-registry candidate whose
payload is a success, and the registry server also answers with a
successful payload, then the attempt stops at the registry hit: the
returned payload is the registry one, not the earlier fallback, and the
trace ends with the registry query. -/
theorem c1_registry_preemption (isWin : Bool) (a t : ℕ) (env : Env)
    (pre rest : List (Option String)) (best s0 : Option String) (p1 p2 : String)
    (hpre : ∀ s ∈ pre, candContinues isWin env s = true)
    (hs0 : s0 ∈ pre) (hs0env : env s0 = QRes.ok p1)
    (hs0succ : isSuccessPayload p1 = true)
    (henv : env (some registry_host) = QRes.ok p2)
    (hrl : isRateLimited p2 = false) (hsucc : isSuccessPayload p2 = true)
    (hne : p1 ≠ p2) :
    (scanServers isWin a t env (pre ++ some registry_host :: rest) best).1 = some p2
  ∧ (scanServers isWin a t env (pre ++ some registry_host :: rest) best).1 ≠ some p1
  ∧ ∃ ch : List Event,
      (scanServers isWin a t env (pre ++ some registry_host :: rest) best).2
        = ch ++ [Event.query (some registry_host) t] := by
  obtain ⟨b2, ch, hch⟩ :=
    scan_cont_prefix isWin a t env pre hpre (some registry_host :: rest) best
  rw [scan_registry_break isWin a t env rest b2 p2 henv hrl hsucc] at hch
  refine ⟨?_, ?_, ?_⟩
  · rw [hch]
  · rw [hch]
    simp only [ne_eq, Option.some.injEq]
    exact fun hcontr => hne hcontr.symm
  · refine ⟨ch ++ (if isWin then winJitter else []), ?_⟩
    rw [hch]
    simp

def payloadA : String := "Registry Expiry Date: 2030-01-15T00:00:00Z"

def payloadB : String := "Registry Expiry Date: 2031-06-01T00:00:00Z"

def envPreempt : Env := fun s =>
  if s = none then QRes.ok payloadA
  else if s = some registry_host then QRes.ok payloadB
  else QRes.err "connection refused"

theorem c1_witness :
    (scanServers false 1 5 envPreempt
        ([none] ++ some registry_host :: [some "whois.nic.site"]) none).1 = some payloadB
  ∧ (scanServers false 1 5 envPreempt
        ([none] ++ some registry_host :: [some "whois.nic.site"]) none).1 ≠ some payloadA
  ∧ ∃ ch : List Event,
      (scanServers false 1 5 envPreempt
          ([none] ++ some registry_host :: [some "whois.nic.site"]) none).2
        = ch ++ [Event.query (some registry_host) 5] :=
  c1_registry_preemption false 1 5 envPreempt [none] [some "whois.nic.site"]
    none none payloadA payloadB
    (by decide) (by decide) (by decide) (by decide) (by decide) (by decide)
    (by decide) (by decide)

/-! ### C10: only whois.verisign-grs.com is registry-authoritative -/

/-- C10: the registry test of the candidate loop compares the candidate
to the fixed host whois.verisign-grs.com, independently of the domain
(only the isWin flag and the replies vary with the domain, and both are
universally quantified here): a successful payload at any other
candidate is stored in the empty fallback slot and the scan continues
with the remaining candidates, while a successful payload at
whois.verisign-grs.com ends the scan immediately with that payload. -/
theorem c10_registry_only_verisign :
    registry_host = "whois.verisign-grs.com"
  ∧ (∀ (isWin : Bool) (a t : ℕ) (env : Env) (s : Option String) (data : String)
       (rest : List (Option String)) (best : Option String),
       ¬(isWin = true ∧ s = some "whois.nic.win") →
       env s = QRes.ok data → isRateLimited data = false →
       isSuccessPayload data = true → s ≠ some registry_host →
       scanServers isWin a t env (s :: rest) best
         = ((scanServers isWin a t env rest
               (match best with | some b => some b | none => some data)).1,
            (if isWin then winJitter else []) ++ Event.query s t
              :: (scanServers isWin a t env rest
                   (match best with | some b => some b | none => some data)).2))
  ∧ (∀ (isWin : Bool) (a t : ℕ) (env : Env) (data : String)
       (rest : List (Option String)) (best : Option String),
       env (some registry_host) = QRes.ok data → isRateLimited data = false →
       isSuccessPayload data = true →
       scanServers isWin a t env (some registry_host :: rest) best
         = (some data, (if isWin then winJitter else [])
             ++ [Event.query (some registry_host) t])) := by
  refine ⟨rfl, ?_, ?_⟩
  · intro isWin a t env s data rest best hskip henv hrl hsucc hreg
    simp only [scanServers]
    rw [if_neg hskip, henv]
    simp [hrl, hsucc, hreg]
  · intro isWin a t env data rest best henv hrl hsucc
    exact scan_registry_break isWin a t env rest best data henv hrl hsucc

def envSiteOk : Env := fun s =>
  if s = some "whois.nic.site" then QRes.ok payloadA
  else if s = some registry_host then QRes.ok payloadB
  else QRes.err "connection refused"

theorem c10_witness :
    scanServers false 1 5 envSiteOk [some "whois.nic.site", some registry_host] none
      = ((scanServers false 1 5 envSiteOk [some registry_host]
            (some payloadA)).1,
         [] ++ Event.query (some "whois.nic.site") 5
           :: (scanServers false 1 5 envSiteOk [some registry_host]
                (some payloadA)).2)
  ∧ scanServers false 1 5 envSiteOk [some registry_host] none
      = (some payloadB, [] ++ [Event.query (some registry_host) 5]) := by
  have h := c10_registry_only_verisign
  constructor
  · exact h.2.1 false 1 5 envSiteOk (some "whois.nic.site") payloadA
      [some registry_host] none (by simp) (by decide) (by decide) (by decide) (by decide)
  · exact h.2.2 false 1 5 envSiteOk payloadB [] none (by decide) (by decide) (by decide)

/-! ### C3: the engine never consults the RDAP adapter -/

theorem all_no_rdap_append (xs ys : List Event)
    (hx : xs.all (fun e => !e.isRdap) = true)
    (hy : ys.all (fun e => !e.isRdap) = true) :
    (xs ++ ys).all (fun e => !e.isRdap) = true := by
  rw [List.all_append, hx, hy]
  rfl

theorem all_no_rdap_cons_query (s : Option String) (t : ℕ) (tl : List Event)
    (h : tl.all (fun e => !e.isRdap) = true) :
    (Event.query s t :: tl).all (fun e => !e.isRdap) = true := by
  rw [List.all_cons, h]
  rfl

theorem all_no_rdap_cons_sleep (lo hi : ℚ) (tl : List Event)
    (h : tl.all (fun e => !e.isRdap) = true) :
    (Event.sleep lo hi :: tl).all (fun e => !e.isRdap) = true := by
  rw [List.all_cons, h]
  rfl

theorem winJitter_no_rdap (c : Bool) :
    ((if c then winJitter else []).all (fun e => !e.isRdap)) = true := by
  cases c <;> rfl

theorem scan_no_rdap (isWin : Bool) (a t : ℕ) (env : Env) :
    ∀ (servers : List (Option String)) (best : Option String),
      ((scanServers isWin a t env servers best).2).all (fun e => !e.isRdap) = true := by
  intro servers
  induction servers with
  | nil => intro best; rfl
  | cons s rest ih =>
    intro best
    simp only [scanServers]
    by_cases hskip : isWin = true ∧ s = some "whois.nic.win"
    · rw [if_pos hskip]
      exact all_no_rdap_append _ _ (winJitter_no_rdap isWin) (ih best)
    · rw [if_neg hskip]
      cases henv : env s with
      | err k =>
        exact all_no_rdap_append _ _ (winJitter_no_rdap isWin)
          (all_no_rdap_cons_query _ _ _ (ih best))
      | ok data =>
        dsimp only
        by_cases hrl : isRateLimited data = true
        · rw [if_pos hrl]
          exact all_no_rdap_append _ _ (winJitter_no_rdap isWin)
            (all_no_rdap_cons_query _ _ _ (all_no_rdap_cons_sleep _ _ _ (ih best)))
        · rw [if_neg hrl]
          by_cases hsucc : isSuccessPayload data = true
          · rw [if_pos hsucc]
            by_cases hreg : s = some registry_host
            · rw [if_pos hreg]
              exact all_no_rdap_append _ _ (winJitter_no_rdap isWin)
                (all_no_rdap_cons_query _ _ _ rfl)
            · rw [if_neg hreg]
              exact all_no_rdap_append _ _ (winJitter_no_rdap isWin)
                (all_no_rdap_cons_query _ _ _ (ih _))
          · rw [if_neg hsucc]
            by_cases hrw : (parse_fields data).registrarWhoisServer = ""
            · rw [if_pos hrw]
              exact all_no_rdap_append _ _ (winJitter_no_rdap isWin)
                (all_no_rdap_cons_query _ _ _ (ih best))
            · rw [if_neg hrw]
              cases hpv : env (some (parse_fields data).registrarWhoisServer) with
              | err k2 =>
                exact all_no_rdap_append _ _ (winJitter_no_rdap isWin)
                  (all_no_rdap_cons_query _ _ _ (all_no_rdap_append _ _
                    (winJitter_no_rdap isWin)
                    (all_no_rdap_cons_query _ _ _ (ih best))))
              | ok d2 =>
                dsimp only
                by_cases hp2 : (parse_expiry_date d2).isSome = true
                · rw [if_pos hp2]
                  exact all_no_rdap_append _ _ (winJitter_no_rdap isWin)
                    (all_no_rdap_cons_query _ _ _ (all_no_rdap_append _ _
                      (winJitter_no_rdap isWin)
                      (all_no_rdap_cons_query _ _ _ rfl)))
                · rw [if_neg hp2]
                  exact all_no_rdap_append _ _ (winJitter_no_rdap isWin)
                    (all_no_rdap_cons_query _ _ _ (all_no_rdap_append _ _
                      (winJitter_no_rdap isWin)
                      (all_no_rdap_cons_query _ _ _ (ih best))))

theorem winGuess_no_rdap (t : ℕ) (env : Env) :
    ∀ (gs : List String),
      ((winGuessLoop t env gs).2).all (fun e => !e.isRdap) = true := by
  intro gs
  induction gs with
  | nil => rfl
  | cons g rest ih =>
    simp only [winGuessLoop]
    cases henv : env (some g) with
    | err k =>
      exact all_no_rdap_cons_sleep _ _ _ (all_no_rdap_cons_query _ _ _ ih)
    | ok d =>
      dsimp only
      by_cases hp : (parse_expiry_date d).isSome = true
      · rw [if_pos hp]
        exact all_no_rdap_cons_sleep _ _ _ (all_no_rdap_cons_query _ _ _ rfl)
      · rw [if_neg hp]
        exact all_no_rdap_cons_sleep _ _ _ (all_no_rdap_cons_query _ _ _ ih)

/-- C3 (amended): whatever the domain, the attempt number and the WHOIS
replies, the single-attempt engine only sleeps and issues WHOIS
queries; it never performs an RDAP call (rdap_fetch exists in the
module but the candidate loop does not invoke it; on a rate-limited
payload it backs off and moves to the next WHOIS candidate). -/
theorem c3_engine_never_calls_rdap (domain : String) (a : ℕ) (env : Env) :
    ((query_domain_single_attempt domain a env).2).all (fun e => !e.isRdap) = true := by
  unfold query_domain_single_attempt
  by_cases hwin : isWinDomain domain = true
  · rw [if_pos hwin]
    cases hg : winGuessLoop (localTimeout domain) env REGISTRAR_GUESS_SERVERS_WIN with
    | mk r tr =>
      cases r with
      | some d =>
        have h1 := winGuess_no_rdap (localTimeout domain) env REGISTRAR_GUESS_SERVERS_WIN
        rw [hg] at h1
        exact h1
      | none =>
        have h1 := winGuess_no_rdap (localTimeout domain) env REGISTRAR_GUESS_SERVERS_WIN
        rw [hg] at h1
        exact all_no_rdap_append _ _ h1
          (scan_no_rdap true a (localTimeout domain) env WHOIS_SERVERS none)
  · rw [if_neg hwin]
    exact scan_no_rdap false a (localTimeout domain) env WHOIS_SERVERS none

def envAllRateLimited : Env := fun _ => QRes.ok "limit exceeded"

/-- C3 counterexample: with every candidate replying with a rate-limit
phrase, rate limiting is detected (the payload classifies RateLimited
and queries are issued), yet the attempt performs no RDAP call and ends
without a payload. -/
theorem c3_counterexample_no_rdap_on_ratelimit :
    isRateLimited "limit exceeded" = true
  ∧ ((query_domain_single_attempt "example.com" 1 envAllRateLimited).2).any
      (fun e => e.isQuery) = true
  ∧ ((query_domain_single_attempt "example.com" 1 envAllRateLimited).2).any
      (fun e => e.isRdap) = false
  ∧ (query_domain_single_attempt "example.com" 1 envAllRateLimited).1 = none := by
  refine ⟨by decide, by decide, by decide, by decide⟩

/-! ### C7: the .win policy -/

/-- The trace of one registrar-guess probe (jitter sleep, then query). -/
def guessChunk (t : ℕ) (g : String) : List Event :=
  [.sleep (1 / 5) (3 / 5), .query (some g) t]

/-- A guess probe fails when the command errors or the reply has no
parseable expiry date. -/
def guessFails (env : Env) (g : String) : Bool :=
  match env (some g) with
  | QRes.err _ => true
  | QRes.ok d => !(parse_expiry_date d).isSome

theorem winGuess_prefix (t : ℕ) (env : Env) (gpre : List String)
    (h : ∀ g2 ∈ gpre, guessFails env g2 = true) :
    ∀ gs, winGuessLoop t env (gpre ++ gs)
      = ((winGuessLoop t env gs).1,
         gpre.flatMap (guessChunk t) ++ (winGuessLoop t env gs).2) := by
  induction gpre with
  | nil => intro gs; simp
  | cons g ps ih =>
    intro gs
    have hg := h g (by simp)
    unfold guessFails at hg
    have ih2 := ih (fun x hx => h x (by simp [hx])) gs
    simp only [List.cons_append, winGuessLoop]
    cases henv : env (some g) with
    | err k => simp [ih2, guessChunk]
    | ok d =>
      rw [henv] at hg
      dsimp only at hg
      have hp : (parse_expiry_date d).isSome = false := by
        cases hh : (parse_expiry_date d).isSome
        · rfl
        · rw [hh] at hg
          exact absurd hg (by decide)
      simp [hp, ih2, guessChunk]

theorem winGuess_hit (t : ℕ) (env : Env) (g : String) (gs : List String) (d : String)
    (henv : env (some g) = QRes.ok d) (hp : (parse_expiry_date d).isSome = true) :
    winGuessLoop t env (g :: gs) = (some d, guessChunk t g) := by
  simp [winGuessLoop, henv, hp, guessChunk]

theorem singleAttempt_win_guess_hit (domain : String) (a : ℕ) (env : Env)
    (gpre : List String) (g : String) (gpost : List String) (d : String)
    (hwin : isWinDomain domain = true)
    (hsplit : REGISTRAR_GUESS_SERVERS_WIN = gpre ++ g :: gpost)
    (hfail : ∀ g2 ∈ gpre, guessFails env g2 = true)
    (henv : env (some g) = QRes.ok d) (hp : (parse_expiry_date d).isSome = true) :
    query_domain_single_attempt domain a env
      = (some d, gpre.flatMap (guessChunk 10) ++ guessChunk 10 g) := by
  have ht : localTimeout domain = 10 := by simp [localTimeout, hwin]
  have hwg : winGuessLoop 10 env REGISTRAR_GUESS_SERVERS_WIN
      = (some d, gpre.flatMap (guessChunk 10) ++ guessChunk 10 g) := by
    rw [hsplit, winGuess_prefix 10 env gpre hfail (g :: gpost),
        winGuess_hit 10 env g gpost d henv hp]
  unfold query_domain_single_attempt
  rw [if_pos hwin, ht, hwg]

theorem query_mem_guessChunks (t : ℕ) :
    ∀ (gl : List String) (s2 : Option String) (t2 : ℕ),
      Event.query s2 t2 ∈ gl.flatMap (guessChunk t) → s2 ∈ gl.map some := by
  intro gl
  induction gl with
  | nil => simp
  | cons g gs ih =>
    intro s2 t2 h
    simp only [List.flatMap_cons, guessChunk, List.mem_append, List.mem_cons,
      List.mem_singleton] at h
    rcases h with (h | h | h) | h
    · exact absurd h (by simp)
    · simp only [Event.query.injEq] at h
      simp [h.1]
    · exact absurd h (by simp)
    · have := ih s2 t2 h
      simp [this]

/-- The skip of the throttled authoritative server (whois.py 281-284):
inside the main pass of a .win domain, the candidate whois.nic.win
contributes only its jitter sleep, no query. -/
theorem scan_skips_nic_win (a t : ℕ) (env : Env)
    (rest : List (Option String)) (best : Option String) :
    scanServers true a t env (some "whois.nic.win" :: rest) best
      = ((scanServers true a t env rest best).1,
         winJitter ++ (scanServers true a t env rest best).2) := by
  simp only [scanServers]
  rw [if_pos ⟨trivial, trivial⟩]
  simp

/-- Per-event timeout discipline: queries must carry the timeout t. -/
def eventTimeoutOk (t : ℕ) : Event → Bool
  | .query _ t2 => t2 == t
  | _ => true

theorem all_qt_append (t : ℕ) (xs ys : List Event)
    (hx : xs.all (eventTimeoutOk t) = true) (hy : ys.all (eventTimeoutOk t) = true) :
    (xs ++ ys).all (eventTimeoutOk t) = true := by
  rw [List.all_append, hx, hy]
  rfl

theorem all_qt_cons_query (t : ℕ) (s : Option String) (tl : List Event)
    (h : tl.all (eventTimeoutOk t) = true) :
    (Event.query s t :: tl).all (eventTimeoutOk t) = true := by
  rw [List.all_cons, h]
  simp [eventTimeoutOk]

theorem all_qt_cons_sleep (t : ℕ) (lo hi : ℚ) (tl : List Event)
    (h : tl.all (eventTimeoutOk t) = true) :
    (Event.sleep lo hi :: tl).all (eventTimeoutOk t) = true := by
  rw [List.all_cons, h]
  rfl

theorem winJitter_qt (t : ℕ) (c : Bool) :
    ((if c then winJitter else []).all (eventTimeoutOk t)) = true := by
  cases c <;> rfl

theorem scan_qt (isWin : Bool) (a t : ℕ) (env : Env) :
    ∀ (servers : List (Option String)) (best : Option String),
      ((scanServers isWin a t env servers best).2).all (eventTimeoutOk t) = true := by
  intro servers
  induction servers with
  | nil => intro best; rfl
  | cons s rest ih =>
    intro best
    simp only [scanServers]
    by_cases hskip : isWin = true ∧ s = some "whois.nic.win"
    · rw [if_pos hskip]
      exact all_qt_append t _ _ (winJitter_qt t isWin) (ih best)
    · rw [if_neg hskip]
      cases henv : env s with
      | err k =>
        exact all_qt_append t _ _ (winJitter_qt t isWin)
          (all_qt_cons_query t _ _ (ih best))
      | ok data =>
        dsimp only
        by_cases hrl : isRateLimited data = true
        · rw [if_pos hrl]
          exact all_qt_append t _ _ (winJitter_qt t isWin)
            (all_qt_cons_query t _ _ (all_qt_cons_sleep t _ _ _ (ih best)))
        · rw [if_neg hrl]
          by_cases hsucc : isSuccessPayload data = true
          · rw [if_pos hsucc]
            by_cases hreg : s = some registry_host
            · rw [if_pos hreg]
              exact all_qt_append t _ _ (winJitter_qt t isWin)
                (all_qt_cons_query t _ _ rfl)
            · rw [if_neg hreg]
              exact all_qt_append t _ _ (winJitter_qt t isWin)
                (all_qt_cons_query t _ _ (ih _))
          · rw [if_neg hsucc]
            by_cases hrw : (parse_fields data).registrarWhoisServer = ""
            · rw [if_pos hrw]
              exact all_qt_append t _ _ (winJitter_qt t isWin)
                (all_qt_cons_query t _ _ (ih best))
            · rw [if_neg hrw]
              cases hpv : env (some (parse_fields data).registrarWhoisServer) with
              | err k2 =>
                exact all_qt_append t _ _ (winJitter_qt t isWin)
                  (all_qt_cons_query t _ _ (all_qt_append t _ _ (winJitter_qt t isWin)
                    (all_qt_cons_query t _ _ (ih best))))
              | ok d2 =>
                dsimp only
                by_cases hp2 : (parse_expiry_date d2).isSome = true
                · rw [if_pos hp2]
                  exact all_qt_append t _ _ (winJitter_qt t isWin)
                    (all_qt_cons_query t _ _ (all_qt_append t _ _ (winJitter_qt t isWin)
                      (all_qt_cons_query t _ _ rfl)))
                · rw [if_neg hp2]
                  exact all_qt_append t _ _ (winJitter_qt t isWin)
                    (all_qt_cons_query t _ _ (all_qt_append t _ _ (winJitter_qt t isWin)
                      (all_qt_cons_query t _ _ (ih best))))

theorem winGuess_qt (t : ℕ) (env : Env) :
    ∀ (gs : List String),
      ((winGuessLoop t env gs).2).all (eventTimeoutOk t) = true := by
  intro gs
  induction gs with
  | nil => rfl
  | cons g rest ih =>
    simp only [winGuessLoop]
    cases henv : env (some g) with
    | err k =>
      exact all_qt_cons_sleep t _ _ _ (all_qt_cons_query t _ _ ih)
    | ok d =>
      dsimp only
      by_cases hp : (parse_expiry_date d).isSome = true
      · rw [if_pos hp]
        exact all_qt_cons_sleep t _ _ _ (all_qt_cons_query t _ _ rfl)
      · rw [if_neg hp]
        exact all_qt_cons_sleep t _ _ _ (all_qt_cons_query t _ _ ih)

theorem singleAttempt_win_qt (domain : String) (a : ℕ) (env : Env)
    (hwin : isWinDomain domain = true) :
    ((query_domain_single_attempt domain a env).2).all (eventTimeoutOk 10) = true := by
  have ht : localTimeout domain = 10 := by simp [localTimeout, hwin]
  unfold query_domain_single_attempt
  rw [if_pos hwin, ht]
  cases hg : winGuessLoop 10 env REGISTRAR_GUESS_SERVERS_WIN with
  | mk r tr =>
    cases r with
    | some d =>
      have h1 := winGuess_qt 10 env REGISTRAR_GUESS_SERVERS_WIN
      rw [hg] at h1
      exact h1
    | none =>
      have h1 := winGuess_qt 10 env REGISTRAR_GUESS_SERVERS_WIN
      rw [hg] at h1
      exact all_qt_append 10 _ _ h1 (scan_qt true a 10 env WHOIS_SERVERS none)

/-- Pairwise check used below: inside the list, an event may be a query
only when the event right before it is a sleep; the first argument is
the preceding event. -/
def sbqAux : Event → List Event → Bool
  | _, [] => true
  | p, e :: rest => (!e.isQuery || p.isSleep) && sbqAux e rest

/-- Every query in the trace is immediately preceded by a sleep (and the
trace does not start with a query). -/
def sleepBeforeQueries : List Event → Bool
  | [] => true
  | e :: rest => !e.isQuery && sbqAux e rest

theorem sbqAux_append (xs : List Event) :
    ∀ (p : Event) (ys : List Event),
      sbqAux p xs = true → sleepBeforeQueries ys = true →
      sbqAux p (xs ++ ys) = true := by
  induction xs with
  | nil =>
    intro p ys _ hy
    cases ys with
    | nil => rfl
    | cons e rest =>
      simp only [List.nil_append, sbqAux]
      simp only [sleepBeforeQueries, Bool.and_eq_true] at hy
      simp only [Bool.and_eq_true, Bool.or_eq_true]
      exact ⟨Or.inl hy.1, hy.2⟩
  | cons x xs ih =>
    intro p ys hx hy
    simp only [List.cons_append, sbqAux, Bool.and_eq_true] at hx ⊢
    exact ⟨hx.1, ih x ys hx.2 hy⟩

theorem sbq_append (xs ys : List Event)
    (hx : sleepBeforeQueries xs = true) (hy : sleepBeforeQueries ys = true) :
    sleepBeforeQueries (xs ++ ys) = true := by
  cases xs with
  | nil => simpa using hy
  | cons e rest =>
    simp only [List.cons_append, sleepBeforeQueries, Bool.and_eq_true] at hx ⊢
    exact ⟨hx.1, sbqAux_append rest e ys hx.2 hy⟩

theorem sbq_sleep_cons (lo hi : ℚ) (X : List Event)
    (hX : sleepBeforeQueries X = true) :
    sleepBeforeQueries (Event.sleep lo hi :: X) = true := by
  cases X with
  | nil => rfl
  | cons e r =>
    simp only [sleepBeforeQueries, sbqAux, Bool.and_eq_true, Bool.or_eq_true] at hX ⊢
    exact ⟨rfl, Or.inl hX.1, hX.2⟩

theorem sbq_sleep_query_cons (lo hi : ℚ) (s : Option String) (t : ℕ) (X : List Event)
    (hX : sleepBeforeQueries X = true) :
    sleepBeforeQueries (Event.sleep lo hi :: Event.query s t :: X) = true := by
  cases X with
  | nil => rfl
  | cons e r =>
    simp only [sleepBeforeQueries, sbqAux, Bool.and_eq_true, Bool.or_eq_true] at hX ⊢
    refine ⟨rfl, ⟨Or.inr rfl, ?_, ?_⟩⟩
    · exact Or.inl hX.1
    · exact hX.2

theorem scan_win_sbq (a t : ℕ) (env : Env) :
    ∀ (servers : List (Option String)) (best : Option String),
      sleepBeforeQueries ((scanServers true a t env servers best).2) = true := by
  intro servers
  induction servers with
  | nil => intro best; rfl
  | cons s rest ih =>
    intro best
    simp only [scanServers]
    by_cases hs : s = some "whois.nic.win"
    · rw [if_pos ⟨trivial, hs⟩]
      exact sbq_append winJitter _ rfl (ih best)
    · rw [if_neg (fun hc => hs hc.2)]
      cases henv : env s with
      | err k =>
        exact sbq_sleep_query_cons _ _ _ _ _ (ih best)
      | ok data =>
        dsimp only
        by_cases hrl : isRateLimited data = true
        · rw [if_pos hrl]
          exact sbq_sleep_query_cons _ _ _ _ _ (sbq_sleep_cons _ _ _ (ih best))
        · rw [if_neg hrl]
          by_cases hsucc : isSuccessPayload data = true
          · rw [if_pos hsucc]
            by_cases hreg : s = some registry_host
            · rw [if_pos hreg]
              exact sbq_sleep_query_cons _ _ _ _ _ rfl
            · rw [if_neg hreg]
              exact sbq_sleep_query_cons _ _ _ _ _ (ih _)
          · rw [if_neg hsucc]
            by_cases hrw : (parse_fields data).registrarWhoisServer = ""
            · rw [if_pos hrw]
              exact sbq_sleep_query_cons _ _ _ _ _ (ih best)
            · rw [if_neg hrw]
              cases hpv : env (some (parse_fields data).registrarWhoisServer) with
              | err k2 =>
                exact sbq_sleep_query_cons _ _ _ _ _
                  (sbq_sleep_query_cons _ _ _ _ _ (ih best))
              | ok d2 =>
                dsimp only
                by_cases hp2 : (parse_expiry_date d2).isSome = true
                · rw [if_pos hp2]
                  exact sbq_sleep_query_cons _ _ _ _ _
                    (sbq_sleep_query_cons _ _ _ _ _ rfl)
                · rw [if_neg hp2]
                  exact sbq_sleep_query_cons _ _ _ _ _
                    (sbq_sleep_query_cons _ _ _ _ _ (ih best))

theorem winGuess_sbq (t : ℕ) (env : Env) :
    ∀ (gs : List String),
      sleepBeforeQueries ((winGuessLoop t env gs).2) = true := by
  intro gs
  induction gs with
  | nil => rfl
  | cons g rest ih =>
    simp only [winGuessLoop]
    cases henv : env (some g) with
    | err k => exact sbq_sleep_query_cons _ _ _ _ _ ih
    | ok d =>
      dsimp only
      by_cases hp : (parse_expiry_date d).isSome = true
      · rw [if_pos hp]
        exact sbq_sleep_query_cons _ _ _ _ _ rfl
      · rw [if_neg hp]
        exact sbq_sleep_query_cons _ _ _ _ _ ih

theorem singleAttempt_win_sbq (domain : String) (a : ℕ) (env : Env)
    (hwin : isWinDomain domain = true) :
    sleepBeforeQueries ((query_domain_single_attempt domain a env).2) = true := by
  unfold query_domain_single_attempt
  rw [if_pos hwin]
  cases hg : winGuessLoop (localTimeout domain) env REGISTRAR_GUESS_SERVERS_WIN with
  | mk r tr =>
    cases r with
    | some d =>
      have h1 := winGuess_sbq (localTimeout domain) env REGISTRAR_GUESS_SERVERS_WIN
      rw [hg] at h1
      exact h1
    | none =>
      have h1 := winGuess_sbq (localTimeout domain) env REGISTRAR_GUESS_SERVERS_WIN
      rw [hg] at h1
      exact sbq_append _ _ h1
        (scan_win_sbq a (localTimeout domain) env WHOIS_SERVERS none)

/-- C7: for a .win domain the engine (a) probes the fixed registrar
guess list first, in order, and returns immediately with the payload of
the first probe whose reply has a parseable expiry date, having queried
only guess servers; (b) skips the authoritative server whois.nic.win as
a candidate in the main pass (only its jitter sleep is emitted); and
(c) uses the 10 second per-attempt timeout instead of the configured
5 second default on every query, each query being immediately preceded
by a randomized delay. -/
theorem c7_win_policy :
    (∀ (domain : String) (a : ℕ) (env : Env) (gpre : List String) (g : String)
       (gpost : List String) (d : String),
       isWinDomain domain = true →
       REGISTRAR_GUESS_SERVERS_WIN = gpre ++ g :: gpost →
       (∀ g2 ∈ gpre, guessFails env g2 = true) →
       env (some g) = QRes.ok d → (parse_expiry_date d).isSome = true →
       query_domain_single_attempt domain a env
         = (some d, gpre.flatMap (guessChunk 10) ++ guessChunk 10 g)
       ∧ (∀ (s2 : Option String) (t2 : ℕ),
            Event.query s2 t2 ∈ (query_domain_single_attempt domain a env).2 →
            s2 ∈ (gpre ++ [g]).map some))
  ∧ (∀ (a t : ℕ) (env : Env) (rest : List (Option String)) (best : Option String),
       scanServers true a t env (some "whois.nic.win" :: rest) best
         = ((scanServers true a t env rest best).1,
            winJitter ++ (scanServers true a t env rest best).2))
  ∧ (∀ (domain : String) (a : ℕ) (env : Env),
       isWinDomain domain = true →
       localTimeout domain = 10
       ∧ CONFIG_whois_timeout = 5
       ∧ (∀ (s2 : Option String) (t2 : ℕ),
            Event.query s2 t2 ∈ (query_domain_single_attempt domain a env).2 → t2 = 10)
       ∧ sleepBeforeQueries ((query_domain_single_attempt domain a env).2) = true) := by
  refine ⟨?_, ?_, ?_⟩
  · intro domain a env gpre g gpost d hwin hsplit hfail henv hp
    have heq := singleAttempt_win_guess_hit domain a env gpre g gpost d
      hwin hsplit hfail henv hp
    refine ⟨heq, ?_⟩
    intro s2 t2 hmem
    rw [heq] at hmem
    rcases List.mem_append.mp hmem with h | h
    · have := query_mem_guessChunks 10 gpre s2 t2 h
      simp only [List.map_append, List.mem_append]
      exact Or.inl this
    · simp only [guessChunk, List.mem_cons, List.mem_singleton] at h
      rcases h with h | h | h
      · exact absurd h (by simp)
      · simp only [Event.query.injEq] at h
        simp [h.1]
      · exact absurd h (by simp)
  · intro a t env rest best
    exact scan_skips_nic_win a t env rest best
  · intro domain a env hwin
    have ht : localTimeout domain = 10 := by simp [localTimeout, hwin]
    refine ⟨ht, rfl, ?_, singleAttempt_win_sbq domain a env hwin⟩
    intro s2 t2 hmem
    have hall := singleAttempt_win_qt domain a env hwin
    have h2 := List.all_eq_true.mp hall _ hmem
    simpa [eventTimeoutOk] using h2

def envWinGuess : Env := fun s =>
  if s = some "whois.godaddy.com" then QRes.ok payloadA else QRes.err "refused"

theorem c7_witness :
    query_domain_single_attempt "test.win" 1 envWinGuess
      = (some payloadA,
         ["grs-whois.aliyun.com"].flatMap (guessChunk 10)
           ++ guessChunk 10 "whois.godaddy.com")
  ∧ scanServers true 1 10 envWinGuess [some "whois.nic.win"] none
      = ((scanServers true 1 10 envWinGuess [] none).1,
         winJitter ++ (scanServers true 1 10 envWinGuess [] none).2)
  ∧ localTimeout "test.win" = 10
  ∧ sleepBeforeQueries ((query_domain_single_attempt "test.win" 1 envWinGuess).2)
      = true := by
  have h := c7_win_policy
  refine ⟨?_, h.2.1 1 10 envWinGuess [] none, ?_, ?_⟩
  · exact (h.1 "test.win" 1 envWinGuess ["grs-whois.aliyun.com"] "whois.godaddy.com"
      ["whois.namecheap.com", "whois.tucows.com", "whois.publicdomainregistry.com"]
      payloadA (by decide) rfl (by decide) (by decide) (by decide)).1
  · exact (h.2.2 "test.win" 1 envWinGuess (by decide)).1
  · exact (h.2.2 "test.win" 1 envWinGuess (by decide)).2.2.2

/-! ### C5: one row per domain, in order, with a closed status set -/

theorem retry_none_of_attempts_none (domain : String) (envs : ℕ → Env)
    (h : ∀ n, 1 ≤ n → n ≤ CONFIG_max_retries →
        (query_domain_single_attempt domain n (envs n)).1 = none) :
    query_domain_with_retry domain envs = none := by
  have h1 := h 1 (by norm_num) (by norm_num [CONFIG_max_retries])
  have h2 := h 2 (by norm_num) (by norm_num [CONFIG_max_retries])
  have h3 := h 3 (by norm_num) (by norm_num [CONFIG_max_retries])
  unfold query_domain_with_retry
  have hr : List.range CONFIG_max_retries = [0, 1, 2] := rfl
  rw [hr]
  simp [List.findSome?, h1, h2, h3]

theorem processDomain_domain_field (now w : Int) (d : String) (res : Option String) :
    (processDomain now w d res).domain = d := by
  cases res with
  | none => rfl
  | some data =>
    cases h : parse_expiry_date data <;> simp [processDomain, h]

theorem processDomain_status_mem (now w : Int) (d : String) (res : Option String) :
    (processDomain now w d res).status = "expired"
  ∨ (processDomain now w d res).status = "warning"
  ∨ (processDomain now w d res).status = "safe"
  ∨ (processDomain now w d res).status = "unknown"
  ∨ (processDomain now w d res).status = "failed" := by
  cases res with
  | none => right; right; right; right; rfl
  | some data =>
    cases h : parse_expiry_date data with
    | none => right; right; right; left; simp [processDomain, h]
    | some dt =>
      simp only [processDomain, h]
      unfold classifyStatus
      split_ifs
      · left; rfl
      · right; left; rfl
      · right; right; left; rfl

/-- C5: the batch produces exactly one row per input domain, rows keep
the input order (row i comes from domain i), every status is one of
expired, warning, safe, unknown, failed, and a domain whose every
attempt yields no payload gets the failed row with all optional fields
empty; processing is total, so one failed domain cannot abort the
batch. -/
theorem c5_one_row_per_domain (domains : List String) (envs : String → ℕ → Env)
    (now w : Int) :
    (batchRows domains envs now w).length = domains.length
  ∧ (∀ i : ℕ, (batchRows domains envs now w).get? i
        = (domains.get? i).map
            (fun d => processDomain now w d (query_domain_with_retry d (envs d))))
  ∧ (∀ r ∈ batchRows domains envs now w,
        r.status = "expired" ∨ r.status = "warning" ∨ r.status = "safe"
          ∨ r.status = "unknown" ∨ r.status = "failed")
  ∧ (∀ (i : ℕ) (r : CsvRow), (batchRows domains envs now w).get? i = some r →
        ∃ d, domains.get? i = some d ∧ r.domain = d)
  ∧ (∀ (i : ℕ) (d : String), domains.get? i = some d →
        (∀ n, 1 ≤ n → n ≤ CONFIG_max_retries →
            (query_domain_single_attempt d n (envs d n)).1 = none) →
        (batchRows domains envs now w).get? i = some (failedRow d)
          ∧ failedRow d = ⟨d, "failed", "", "", "", "", "", "", ""⟩) := by
  refine ⟨?_, ?_, ?_, ?_, ?_⟩
  · simp [batchRows]
  · intro i
    simp [batchRows, List.get?_map]
  · intro r hr
    simp only [batchRows, List.mem_map] at hr
    obtain ⟨d, -, rfl⟩ := hr
    exact processDomain_status_mem now w d _
  · intro i r hr
    have hmap : (batchRows domains envs now w).get? i
        = (domains.get? i).map
            (fun d => processDomain now w d (query_domain_with_retry d (envs d))) := by
      simp [batchRows, List.get?_map]
    rw [hmap] at hr
    cases hd : domains.get? i with
    | none => rw [hd] at hr; exact absurd hr (by simp)
    | some d =>
      rw [hd] at hr
      refine ⟨d, rfl, ?_⟩
      have h2 : processDomain now w d (query_domain_with_retry d (envs d)) = r := by
        simpa using hr
      rw [← h2]
      exact processDomain_domain_field now w d _
  · intro i d hd hfails
    have hnone := retry_none_of_attempts_none d (envs d) hfails
    have hmap : (batchRows domains envs now w).get? i
        = (domains.get? i).map
            (fun d2 => processDomain now w d2 (query_domain_with_retry d2 (envs d2))) := by
      simp [batchRows, List.get?_map]
    constructor
    · rw [hmap, hd]
      simp [hnone, processDomain]
    · rfl

def envRefuseAll : String → ℕ → Env := fun _ _ _ => QRes.err "refused"

theorem c5_witness :
    (batchRows ["a.com"] envRefuseAll 0 50).get? 0 = some (failedRow "a.com")
  ∧ (batchRows ["a.com"] envRefuseAll 0 50).length = 1
  ∧ failedRow "a.com" = ⟨"a.com", "failed", "", "", "", "", "", "", ""⟩ := by
  have h := c5_one_row_per_domain ["a.com"] envRefuseAll 0 50
  have hfail : ∀ n, 1 ≤ n → n ≤ CONFIG_max_retries →
      (query_domain_single_attempt "a.com" n (envRefuseAll "a.com" n)).1 = none := by
    intro n h1 h3
    have h3b : n ≤ 3 := h3
    interval_cases n <;> decide
  refine ⟨(h.2.2.2.2 0 "a.com" rfl hfail).1, h.1, (h.2.2.2.2 0 "a.com" rfl hfail).2⟩
